import Mathlib

/-!
Verification development for the gqlgen "todo-modelgen" plugin
(`plugin/main.go`, package `todo`).

The plugin's `MutateConfig` walks every schema type, classifies it into one
of the four buckets of a `ModelBuild` (Interfaces, Models, Enums, Scalars),
composes every object field (type resolution, name override, json tag,
gorm tag), sorts three buckets by name, registers every generated name into
the host's type map, and finally renders (or short-circuits when the build
is empty).

The embedding below mirrors the Go source definition by definition.
Modelling conventions:
- `ast.DefinitionKind` is a Go string type; kinds are plain `String`s here
  ("SCALAR", "OBJECT", "INTERFACE", "UNION", "ENUM", "INPUT_OBJECT").
- `cfg.Schema.Types` is a Go map; it is modelled as a `List Definition`
  whose order is arbitrary (Go map iteration order is unspecified), with
  map lookup modelled by `List.find?` on the name.
- The Go pointer comparison `schemaType == cfg.Schema.Query` is modelled
  as name equality against the root's name (`Schema.QueryName` etc.):
  gqlparser stores each root definition in the `Types` map under its name,
  and map keys are unique, so pointer identity coincides with name
  equality.
- `go/types` values are modelled by the small closed `GoType` type: the
  plugin only ever builds named types (with a struct, interface or absent
  underlying), pointers and slices.
- Go `panic` and returned errors are both modelled as `Except.error`
  (either aborts the run with no output).
- External collaborators absent from the source (the binder's
  `FindTypeFromName`, `templates.ToGo`) are host capabilities carried in
  `Config`; `CopyModifiersFromAst` is modelled from the spec (see its
  doc comment).
-/

namespace Modelgen

/-- Model of `ast.Argument`: the plugin reads only `arg.Value.Raw`,
so the value is collapsed to its raw string. -/
structure Argument where
  Name : String
  Raw : String
deriving DecidableEq

/-- Model of `ast.Directive`: a name and its arguments. -/
structure Directive where
  Name : String
  Arguments : List Argument
deriving DecidableEq

/-- Model of `ast.Type`: either a named type or a list type, each with a
non-null flag. -/
inductive AstType where
  | named (namedType : String) (nonNull : Bool)
  | list (elem : AstType) (nonNull : Bool)
deriving DecidableEq

/-- Model of `ast.Type.Name()`: the innermost named type's name. -/
def AstType.Name : AstType → String
  | .named n _ => n
  | .list e _ => e.Name

/-- Model of `ast.FieldDefinition` (the parts the plugin reads). -/
structure FieldDefinition where
  Name : String
  Description : String
  Typ : AstType
  Directives : List Directive
deriving DecidableEq

/-- Model of `ast.EnumValueDefinition` (the parts the plugin reads). -/
structure EnumValueDefinition where
  Name : String
  Description : String
deriving DecidableEq

/-- Model of `ast.Definition` (a schema type; the parts the plugin reads).
`Kind` is a string, exactly as gqlparser's `DefinitionKind`. -/
structure Definition where
  Kind : String
  Name : String
  Description : String
  Fields : List FieldDefinition
  EnumValues : List EnumValueDefinition
  Directives : List Directive
  BuiltIn : Bool
deriving DecidableEq

/-- Model of the parsed schema as the plugin sees it through
`cfg.Schema`: the types (map modelled as a list in arbitrary order), the
names of the root operation types, and `Schema.GetImplements` collapsed to
the list of names it yields for a type name. -/
structure Schema where
  Types : List Definition
  QueryName : Option String
  MutationName : Option String
  SubscriptionName : Option String
  Implements : String → List String

/-- Model of `go/types` type values constructed or inspected by the
plugin: named types built by `types.NewNamed` (underlying absent, an empty
struct, or an empty interface — the only underlyings the plugin builds),
pointers, slices, and basic types (possible binder results). -/
inductive GoType where
  | named (name : String) (u : GoType)
  | namedNoUnderlying (name : String)
  | structEmpty
  | interfaceEmpty
  | pointer (t : GoType)
  | slice (t : GoType)
  | basic (name : String)
deriving DecidableEq

/-- Model of the plugin's `isStruct`: `t.Underlying()` is an empty-struct
value exactly when `t` is a named type whose underlying is a struct, or a
struct itself (`Underlying` of pointers, slices and basics is the type
itself). -/
def isStruct (t : GoType) : Bool :=
  match t with
  | .named _ u => (match u with | .structEmpty => true | _ => false)
  | .structEmpty => true
  | _ => false

/-- Model of `config.TypeMapField` (only `FieldName` is read). -/
structure TypeMapField where
  FieldName : String
deriving DecidableEq

/-- Model of `config.TypeMapEntry` (only `Model` and `Fields` are read);
both Go maps are modelled as association lists. -/
structure TypeMapEntry where
  Model : List String
  Fields : List (String × TypeMapField)

/-- Model of the slice of `config.Config` the plugin reads:
`cfg.Model.Package`, `cfg.Model.ImportPath()`, `cfg.Models`, plus the two
external host capabilities the plugin calls — `templates.ToGo` (name
styling) and `binder.FindTypeFromName` (fallible override resolution). -/
structure Config where
  PackageName : String
  ImportPath : String
  ToGo : String → String
  Models : List (String × TypeMapEntry)
  Binder : String → Except String GoType

/-- Model of `config.TypeMap.UserDefined`: an entry exists for the name
and its `Model` list is non-empty. -/
def userDefined (cfg : Config) (n : String) : Bool :=
  match cfg.Models.lookup n with
  | some e => !e.Model.isEmpty
  | none => false

/-- Model of `cfg.Models[name].Model[0]` (only evaluated under the
`UserDefined` guard, which guarantees the entry and a head exist). -/
def userModelName (cfg : Config) (n : String) : String :=
  match cfg.Models.lookup n with
  | some e => e.Model.headD ""
  | none => ""

/-- Model of `cfg.Models[typeName].Fields[fieldName].FieldName`: Go map
indexing of missing keys yields zero values, hence the empty string. -/
def fieldNameOverride (cfg : Config) (tn fn : String) : String :=
  match cfg.Models.lookup tn with
  | some e =>
    match e.Fields.lookup fn with
    | some fe => fe.FieldName
    | none => ""
  | none => ""

/-- Output `Field` of the generated model (source struct `Field`;
`Type` is spelled `Typ` because `Type` is reserved in Lean). -/
structure Field where
  Description : String
  Name : String
  Typ : GoType
  Tag : String
  Gorm : String
deriving DecidableEq

/-- Output `Object` of the generated model (source struct `Object`). -/
structure Object where
  Description : String
  Name : String
  Fields : List Field
  Implements : List String
deriving DecidableEq

/-- Output `Interface` of the generated model (source struct `Interface`). -/
structure Interface where
  Description : String
  Name : String
deriving DecidableEq

/-- Output `EnumValue` of the generated model (source struct `EnumValue`). -/
structure EnumValue where
  Description : String
  Name : String
deriving DecidableEq

/-- Output `Enum` of the generated model (source struct `Enum`). -/
structure Enum where
  Description : String
  Name : String
  Values : List EnumValue
deriving DecidableEq

/-- The aggregate root of one generation run (source struct `ModelBuild`). -/
structure ModelBuild where
  PackageName : String
  Interfaces : List Interface
  Models : List Object
  Enums : List Enum
  Scalars : List String
deriving DecidableEq

/-- Errors that abort `MutateConfig`: the binder's resolution failure
(returned as `err`), the `panic("unknown ast type …")` on an unknown field
base-type kind, and the Go nil-pointer panic that would occur if a field's
named base type were absent from the schema's type map. -/
inductive GenError where
  | binderError (msg : String)
  | unknownFieldKind (kind : String)
  | nilDereference
deriving DecidableEq

/-- Modelled from the spec: the host binder's `CopyModifiersFromAst`
(absent from the source; spec §4.2 step 3 — "apply the field's
list/required modifiers from the schema to wrap the base reference
(list-of, optional) preserving the schema's declared nesting"). Each list
level becomes a slice, and every nullable level adds a pointer wrap. -/
def copyModifiersFromAst : AstType → GoType → GoType
  | .list elem nonNull, base =>
    let inner := GoType.slice (copyModifiersFromAst elem base)
    if nonNull then inner else GoType.pointer inner
  | .named _ nonNull, base => if nonNull then base else GoType.pointer base

/-- Model of `schemaType == cfg.Schema.Query || … Mutation || …
Subscription`, with pointer identity rendered as name equality (see the
module doc comment). -/
def isRootName (s : Schema) (n : String) : Bool :=
  s.QueryName == some n || s.MutationName == some n || s.SubscriptionName == some n

/-- Base-type resolution for one field (source lines 136–182): a
user-defined override goes to the binder; otherwise the base type's own
kind selects the synthesized named type; any other kind panics. -/
def resolveBase (cfg : Config) (s : Schema) (f : FieldDefinition) : Except GenError GoType :=
  if userDefined cfg f.Typ.Name then
    match cfg.Binder (userModelName cfg f.Typ.Name) with
    | .ok t => .ok t
    | .error e => .error (.binderError e)
  else
    match s.Types.find? (fun t => t.Name == f.Typ.Name) with
    | none => .error .nilDereference
    | some fd =>
      if fd.Kind == "SCALAR" then
        .ok (.namedNoUnderlying "string")
      else if fd.Kind == "INTERFACE" || fd.Kind == "UNION" then
        .ok (.named (cfg.ToGo f.Typ.Name) .interfaceEmpty)
      else if fd.Kind == "ENUM" then
        .ok (.namedNoUnderlying (cfg.ToGo f.Typ.Name))
      else if fd.Kind == "OBJECT" || fd.Kind == "INPUT_OBJECT" then
        .ok (.named (cfg.ToGo f.Typ.Name) .structEmpty)
      else
        .error (.unknownFieldKind fd.Kind)

/-- The gorm-tag computation (source lines 195–204):
`field.Directives.ForName("isDatabaseField")`, then the optional
`fieldName` argument. -/
def gormTag (f : FieldDefinition) : String :=
  match f.Directives.find? (fun d => d.Name == "isDatabaseField") with
  | none => ""
  | some d =>
    match d.Arguments.find? (fun a => a.Name == "fieldName") with
    | some a => "gorm:\"column:" ++ a.Raw ++ "\""
    | none => "gorm:\"column:" ++ f.Name ++ "\""

/-- The field-composition loop body (source lines 135–212) for one field
of the object named `tn`: resolve the base type, apply the name override,
copy the ast modifiers, force a pointer wrap on struct-shaped
object/input-object references (note the Go `&&` short-circuit: the
schema lookup is only dereferenced when `isStruct` holds), and build the
`Field` with its json and gorm tags. -/
def composeField (cfg : Config) (s : Schema) (tn : String) (f : FieldDefinition) :
    Except GenError Field := do
  let base ← resolveBase cfg s f
  let name := if fieldNameOverride cfg tn f.Name == "" then f.Name else fieldNameOverride cfg tn f.Name
  let typ0 := copyModifiersFromAst f.Typ base
  let wrapObj ←
    if isStruct typ0 then
      match s.Types.find? (fun t => t.Name == f.Typ.Name) with
      | none => .error .nilDereference
      | some fd => .ok (fd.Kind == "OBJECT" || fd.Kind == "INPUT_OBJECT")
    else .ok false
  let typ := if wrapObj then GoType.pointer typ0 else typ0
  .ok { Description := f.Description, Name := name, Typ := typ,
        Tag := "json:\"" ++ f.Name ++ "\"", Gorm := gormTag f }

/-- The `for _, field := range schemaType.Fields` loop: fields are
composed and appended in declaration order; the first error aborts. -/
def composeFields (cfg : Config) (s : Schema) (tn : String) :
    List FieldDefinition → Except GenError (List Field)
  | [] => .ok []
  | f :: fs => do
    let fld ← composeField cfg s tn f
    let rest ← composeFields cfg s tn fs
    .ok (fld :: rest)

/-- The object arm of the classifier (source lines 127–213): build the
`Object` with its implements edges and composed fields. -/
def composeObject (cfg : Config) (s : Schema) (t : Definition) : Except GenError Object :=
  (composeFields cfg s t.Name t.Fields).map (fun fs =>
    { Description := t.Description, Name := t.Name, Fields := fs,
      Implements := s.Implements t.Name })

/-- One iteration of the classifier loop (source lines 109–233): skip
built-ins, dispatch on the type's kind, skip root operation types; the Go
`switch` has no `default` case, so any other kind falls through and the
type is skipped. -/
def classifyType (cfg : Config) (s : Schema) (b : ModelBuild) (t : Definition) :
    Except GenError ModelBuild :=
  if t.BuiltIn then .ok b
  else if t.Kind == "INTERFACE" || t.Kind == "UNION" then
    .ok { b with Interfaces := b.Interfaces ++ [{ Description := t.Description, Name := t.Name }] }
  else if t.Kind == "OBJECT" || t.Kind == "INPUT_OBJECT" then
    if isRootName s t.Name then .ok b
    else
      (composeObject cfg s t).map (fun o => { b with Models := b.Models ++ [o] })
  else if t.Kind == "ENUM" then
    .ok { b with Enums := b.Enums ++
      [{ Name := t.Name, Description := t.Description,
         Values := t.EnumValues.map (fun v => { Name := v.Name, Description := v.Description }) }] }
  else if t.Kind == "SCALAR" then
    .ok { b with Scalars := b.Scalars ++ [t.Name] }
  else .ok b

/-- The whole classifier loop over the schema's types. -/
def classifyAll (cfg : Config) (s : Schema) : List Definition → ModelBuild → Except GenError ModelBuild
  | [], b => .ok b
  | t :: ts, b => (classifyType cfg s b t).bind (fun b2 => classifyAll cfg s ts b2)

/-- Insertion step of the sort modelling `sort.Slice(…, Name < Name)`. -/
def insertByName (f : α → String) (x : α) : List α → List α
  | [] => [x]
  | y :: ys => if f x ≤ f y then x :: y :: ys else y :: insertByName f x ys

/-- Model of `sort.Slice(b.Xs, func(i, j) { Name < Name })` as insertion
sort on the name projection (the Go sort is unstable, so any
name-nondecreasing reordering is a faithful model; this fixes one). -/
def sortByName (f : α → String) : List α → List α
  | [] => []
  | x :: xs => insertByName f x (sortByName f xs)

/-- The build `MutateConfig` starts from (source lines 105–107). -/
def initialBuild (cfg : Config) : ModelBuild :=
  { PackageName := cfg.PackageName, Interfaces := [], Models := [], Enums := [], Scalars := [] }

/-- The three sorts after the classifier loop (source lines 234–236);
`Scalars` is deliberately not sorted. -/
def sortBuild (b : ModelBuild) : ModelBuild :=
  { b with Enums := sortByName Enum.Name b.Enums,
           Models := sortByName Object.Name b.Models,
           Interfaces := sortByName Interface.Name b.Interfaces }

/-- The registration log of the four `cfg.Models.Add` loops (source lines
238–249), in call order: Enums, then Models, then Interfaces, then
Scalars; scalars map to `github.com/99designs/gqlgen/graphql.String`. -/
def registrationsOf (cfg : Config) (b : ModelBuild) : List (String × String) :=
  b.Enums.map (fun it => (it.Name, cfg.ImportPath ++ "." ++ cfg.ToGo it.Name))
  ++ b.Models.map (fun it => (it.Name, cfg.ImportPath ++ "." ++ cfg.ToGo it.Name))
  ++ b.Interfaces.map (fun it => (it.Name, cfg.ImportPath ++ "." ++ cfg.ToGo it.Name))
  ++ b.Scalars.map (fun n => (n, "github.com/99designs/gqlgen/graphql.String"))

/-- The observable outcome of a successful `MutateConfig` run: the final
build, the registration log, and whether `templates.Render` was invoked
(`false` exactly on the early `return nil` of source lines 251–253). -/
structure RunOutput where
  build : ModelBuild
  registrations : List (String × String)
  rendered : Bool
deriving DecidableEq

/-- The pure tail of `MutateConfig` after the classifier loop: sort,
register, and decide whether to render (source lines 234–255). -/
def finishRun (cfg : Config) (b0 : ModelBuild) : RunOutput :=
  let b := sortBuild b0
  { build := b,
    registrations := registrationsOf cfg b,
    rendered := !(b.Models.isEmpty && b.Enums.isEmpty && b.Interfaces.isEmpty && b.Scalars.isEmpty) }

/-- The plugin's `MutateConfig` (source lines 102–349), with the external
renderer's invocation recorded as the `rendered` flag. -/
def MutateConfig (cfg : Config) (s : Schema) : Except GenError RunOutput :=
  (classifyAll cfg s s.Types (initialBuild cfg)).map (finishRun cfg)

/-- The kinds the classifier knows (spec §4.1's four buckets, six kind
strings). -/
def knownKind (k : String) : Bool :=
  k == "INTERFACE" || k == "UNION" || k == "OBJECT" || k == "INPUT_OBJECT"
    || k == "ENUM" || k == "SCALAR"

/-! ### Bucket characterizations of the classifier loop

`classifyAll` interleaves the four buckets in one pass; the lemmas below
re-express each final bucket as a filter of the input type list, which is
what every claim about the assembled build reasons from. -/

/-- Condition under which a type lands in the Interfaces bucket. -/
def ifcPred (t : Definition) : Bool :=
  !t.BuiltIn && (t.Kind == "INTERFACE" || t.Kind == "UNION")

/-- Condition under which a type lands in the Models bucket. -/
def objPred (s : Schema) (t : Definition) : Bool :=
  !t.BuiltIn && (t.Kind == "OBJECT" || t.Kind == "INPUT_OBJECT") && !isRootName s t.Name

/-- Condition under which a type lands in the Enums bucket. -/
def enumPred (t : Definition) : Bool :=
  !t.BuiltIn && t.Kind == "ENUM"

/-- Condition under which a type lands in the Scalars bucket. -/
def scalarPred (t : Definition) : Bool :=
  !t.BuiltIn && t.Kind == "SCALAR"

/-- The Interfaces bucket the classifier accumulates over `ts`. -/
def interfacesOf (ts : List Definition) : List Interface :=
  (ts.filter ifcPred).map (fun t => { Description := t.Description, Name := t.Name })

/-- The Enums bucket the classifier accumulates over `ts`. -/
def enumsOf (ts : List Definition) : List Enum :=
  (ts.filter enumPred).map (fun t =>
    { Name := t.Name, Description := t.Description,
      Values := t.EnumValues.map (fun v => { Name := v.Name, Description := v.Description }) })

/-- The Scalars bucket the classifier accumulates over `ts`. -/
def scalarsOf (ts : List Definition) : List String :=
  (ts.filter scalarPred).map (fun t => t.Name)

/-- Sequential object composition over a list of (object-kind) types;
the first error aborts, as in the source loop. -/
def composeObjects (cfg : Config) (s : Schema) : List Definition → Except GenError (List Object)
  | [] => .ok []
  | t :: ts => do
    let o ← composeObject cfg s t
    let os ← composeObjects cfg s ts
    .ok (o :: os)

/-- The schema kind of a field's base type is Object or InputObject
(the second conjunct of the struct-wrap condition, source line 191). -/
def fieldKindIsObj (s : Schema) (f : FieldDefinition) : Bool :=
  match s.Types.find? (fun t => t.Name == f.Typ.Name) with
  | some fd => fd.Kind == "OBJECT" || fd.Kind == "INPUT_OBJECT"
  | none => false

/-! ### Concrete inputs used as witnesses and counterexamples -/

/-- A configuration with no user-defined models, one field-name override
(`User.name ↦ FullName`), identity name styling, and a binder that
resolves any name to a basic type. -/
def cfgW : Config :=
  { PackageName := "model", ImportPath := "myapp/model", ToGo := fun n => n,
    Models := [("User", { Model := [], Fields := [("name", { FieldName := "FullName" })] })],
    Binder := fun n => .ok (.basic n) }

/-- The built-in `String` scalar definition. -/
def stringBuiltin : Definition :=
  { Kind := "SCALAR", Name := "String", Description := "", Fields := [], EnumValues := [],
    Directives := [], BuiltIn := true }

/-- Field `name: String!` carrying `@isDatabaseField` without argument. -/
def fNameW : FieldDefinition :=
  { Name := "name", Description := "", Typ := .named "String" true,
    Directives := [{ Name := "isDatabaseField", Arguments := [] }] }

/-- Field `addr: String` carrying `@isDatabaseField(fieldName: "home_address")`. -/
def fAddrW : FieldDefinition :=
  { Name := "addr", Description := "", Typ := .named "String" false,
    Directives := [{ Name := "isDatabaseField",
                     Arguments := [{ Name := "fieldName", Raw := "home_address" }] }] }

/-- Field `friend: User!` — a required reference to an object type. -/
def fFriendW : FieldDefinition :=
  { Name := "friend", Description := "", Typ := .named "User" true, Directives := [] }

/-- Field `status: Status!` — a required reference to an enum type. -/
def fStatusW : FieldDefinition :=
  { Name := "status", Description := "", Typ := .named "Status" true, Directives := [] }

/-- Object type `User implements Node` with the four fields above. -/
def userW : Definition :=
  { Kind := "OBJECT", Name := "User", Description := "",
    Fields := [fNameW, fAddrW, fFriendW, fStatusW], EnumValues := [],
    Directives := [], BuiltIn := false }

/-- Enum type `Status` with two values in declaration order. -/
def statusW : Definition :=
  { Kind := "ENUM", Name := "Status", Description := "", Fields := [],
    EnumValues := [{ Name := "ACTIVE", Description := "" }, { Name := "DONE", Description := "" }],
    Directives := [], BuiltIn := false }

/-- Interface type `Node`. -/
def nodeW : Definition :=
  { Kind := "INTERFACE", Name := "Node", Description := "", Fields := [], EnumValues := [],
    Directives := [], BuiltIn := false }

/-- The root `Query` object type. -/
def queryW : Definition :=
  { Kind := "OBJECT", Name := "Query", Description := "",
    Fields := [{ Name := "user", Description := "", Typ := .named "User" false, Directives := [] }],
    EnumValues := [], Directives := [], BuiltIn := false }

/-- Custom scalar `Time`. -/
def timeW : Definition :=
  { Kind := "SCALAR", Name := "Time", Description := "", Fields := [], EnumValues := [],
    Directives := [], BuiltIn := false }

/-- A schema exercising every bucket, listed deliberately out of name
order, with `Query` as the query root and `User implements Node`. -/
def schemaW : Schema :=
  { Types := [userW, statusW, nodeW, queryW, stringBuiltin, timeW],
    QueryName := some "Query", MutationName := none, SubscriptionName := none,
    Implements := fun n => if n == "User" then ["Node"] else [] }

/-- The (successful) run of the plugin over `cfgW`/`schemaW`. -/
def runW : RunOutput :=
  match MutateConfig cfgW schemaW with
  | .ok r => r
  | .error _ => { build := { PackageName := "", Interfaces := [], Models := [],
                             Enums := [], Scalars := [] },
                  registrations := [], rendered := false }

/-- The first generated model of `runW` (the `User` object). -/
def oW : Object :=
  runW.build.Models.headD { Description := "", Name := "", Fields := [], Implements := [] }

/-- The composed descriptor of the `friend: User!` field. -/
def fldFriendW : Field :=
  match composeField cfgW schemaW "User" fFriendW with
  | .ok fl => fl
  | .error _ => { Description := "", Name := "", Typ := .structEmpty, Tag := "", Gorm := "" }

/-- The composed descriptor of the `name: String!` field. -/
def fldNameW : Field :=
  match composeField cfgW schemaW "User" fNameW with
  | .ok fl => fl
  | .error _ => { Description := "", Name := "", Typ := .structEmpty, Tag := "", Gorm := "" }

/-- The composed descriptor of the `addr: String` field. -/
def fldAddrW : Field :=
  match composeField cfgW schemaW "User" fAddrW with
  | .ok fl => fl
  | .error _ => { Description := "", Name := "", Typ := .structEmpty, Tag := "", Gorm := "" }

/-- A configuration with no overrides at all. -/
def cfgU : Config :=
  { PackageName := "model", ImportPath := "myapp/model", ToGo := fun n => n,
    Models := [], Binder := fun n => .ok (.basic n) }

/-- A non-built-in type whose kind is outside the four known kinds. -/
def weirdU : Definition :=
  { Kind := "WEIRD", Name := "X", Description := "", Fields := [], EnumValues := [],
    Directives := [], BuiltIn := false }

/-- A schema whose only type has an unknown kind. -/
def schemaU : Schema :=
  { Types := [weirdU], QueryName := none, MutationName := none, SubscriptionName := none,
    Implements := fun _ => [] }

/-- Object type `User` carrying `@isDatabaseField` at the TYPE level, with
one field `name: String!` carrying no directive of its own. -/
def userD : Definition :=
  { Kind := "OBJECT", Name := "User", Description := "",
    Fields := [{ Name := "name", Description := "", Typ := .named "String" true, Directives := [] }],
    EnumValues := [],
    Directives := [{ Name := "isDatabaseField", Arguments := [] }],
    BuiltIn := false }

/-- A schema with the type-level-directive object `userD`. -/
def schemaD : Schema :=
  { Types := [stringBuiltin, userD], QueryName := none, MutationName := none,
    SubscriptionName := none, Implements := fun _ => [] }

theorem except_map_ok_iff {α β ε : Type} (f : α → β) (e : Except ε α) (b : β) :
    e.map f = .ok b ↔ ∃ a, e = .ok a ∧ f a = b := by
  cases e with
  | error err => simp [Except.map]
  | ok v =>
    constructor
    · intro h
      exact ⟨v, rfl, by injection h⟩
    · rintro ⟨a, ha, hfa⟩
      injection ha with ha
      subst ha
      simp [Except.map, hfa]

/-- Master decomposition: one pass of the classifier over `ts` appends to
each bucket exactly the corresponding filtered projection of `ts`, and
fails exactly when composing the objects fails. -/
theorem classifyAll_decomp (cfg : Config) (s : Schema) :
    ∀ (ts : List Definition) (b : ModelBuild),
      classifyAll cfg s ts b =
        (composeObjects cfg s (ts.filter (objPred s))).map (fun ms =>
          { PackageName := b.PackageName,
            Interfaces := b.Interfaces ++ interfacesOf ts,
            Models := b.Models ++ ms,
            Enums := b.Enums ++ enumsOf ts,
            Scalars := b.Scalars ++ scalarsOf ts }) := by
  intro ts
  induction ts with
  | nil =>
    intro b
    simp [classifyAll, composeObjects, interfacesOf, enumsOf, scalarsOf, Except.map]
  | cons t ts ih =>
    intro b
    by_cases hB : t.BuiltIn = true
    · have h1 : ifcPred t = false := by simp [ifcPred, hB]
      have h2 : objPred s t = false := by simp [objPred, hB]
      have h3 : enumPred t = false := by simp [enumPred, hB]
      have h4 : scalarPred t = false := by simp [scalarPred, hB]
      simp only [classifyAll, classifyType, hB, if_true, Except.bind]
      rw [ih]
      simp [interfacesOf, enumsOf, scalarsOf, List.filter_cons, h1, h2, h3, h4]
    · rw [Bool.not_eq_true] at hB
      by_cases hI : (t.Kind == "INTERFACE" || t.Kind == "UNION") = true
      · have hkind : t.Kind = "INTERFACE" ∨ t.Kind = "UNION" := by
          rcases Bool.or_eq_true_iff.mp hI with h | h
          · exact Or.inl (beq_iff_eq.mp h)
          · exact Or.inr (beq_iff_eq.mp h)
        have hO : (t.Kind == "OBJECT" || t.Kind == "INPUT_OBJECT") = false := by
          rcases hkind with h | h <;> simp [h]
        have hE : (t.Kind == "ENUM") = false := by rcases hkind with h | h <;> simp [h]
        have hS : (t.Kind == "SCALAR") = false := by rcases hkind with h | h <;> simp [h]
        have h1 : ifcPred t = true := by simp [ifcPred, hB, hI]
        have h2 : objPred s t = false := by simp [objPred, hO]
        have h3 : enumPred t = false := by simp [enumPred, hE]
        have h4 : scalarPred t = false := by simp [scalarPred, hS]
        simp only [classifyAll, classifyType, hB, Bool.false_eq_true, if_false, hI, if_true,
          Except.bind]
        rw [ih]
        cases hcos : composeObjects cfg s ((t :: ts).filter (objPred s)) with
        | error e =>
          rw [List.filter_cons_of_neg (by simp [h2])] at hcos
          simp [hcos, Except.map]
        | ok os =>
          rw [List.filter_cons_of_neg (by simp [h2])] at hcos
          simp [hcos, Except.map, interfacesOf, enumsOf, scalarsOf, List.filter_cons,
            h1, h3, h4]
      · by_cases hO : (t.Kind == "OBJECT" || t.Kind == "INPUT_OBJECT") = true
        · have hkind : t.Kind = "OBJECT" ∨ t.Kind = "INPUT_OBJECT" := by
            rcases Bool.or_eq_true_iff.mp hO with h | h
            · exact Or.inl (beq_iff_eq.mp h)
            · exact Or.inr (beq_iff_eq.mp h)
          have hE : (t.Kind == "ENUM") = false := by rcases hkind with h | h <;> simp [h]
          have hS : (t.Kind == "SCALAR") = false := by rcases hkind with h | h <;> simp [h]
          have hIf : (t.Kind == "INTERFACE" || t.Kind == "UNION") = false := by
            rcases hkind with h | h <;> simp [h]
          have h1 : ifcPred t = false := by simp [ifcPred, hIf]
          have h3 : enumPred t = false := by simp [enumPred, hE]
          have h4 : scalarPred t = false := by simp [scalarPred, hS]
          by_cases hR : isRootName s t.Name = true
          · have h2 : objPred s t = false := by simp [objPred, hR]
            simp only [classifyAll, classifyType, hB, Bool.false_eq_true, if_false, hIf,
              hO, if_true, hR, Except.bind]
            rw [ih]
            simp [interfacesOf, enumsOf, scalarsOf, List.filter_cons, h1, h2, h3, h4]
          · rw [Bool.not_eq_true] at hR
            have h2 : objPred s t = true := by simp [objPred, hB, hO, hR]
            simp only [classifyAll, classifyType, hB, Bool.false_eq_true, if_false, hIf,
              hO, if_true, hR, Except.bind]
            rw [List.filter_cons_of_pos (by simp [h2])]
            cases hco : composeObject cfg s t with
            | error e =>
              simp [hco, Except.map, composeObjects, Except.bind, Bind.bind]
            | ok o =>
              simp only [hco, Except.map, Except.bind]
              rw [ih]
              cases hcos : composeObjects cfg s (ts.filter (objPred s)) with
              | error e =>
                simp [Except.map, composeObjects, hco, hcos, Except.bind, Bind.bind]
              | ok os =>
                simp [Except.map, composeObjects, hco, hcos, Except.bind, Bind.bind,
                  interfacesOf, enumsOf, scalarsOf, List.filter_cons, h1, h3, h4]
        · by_cases hE : (t.Kind == "ENUM") = true
          · have hkind : t.Kind = "ENUM" := beq_iff_eq.mp hE
            have hS : (t.Kind == "SCALAR") = false := by simp [hkind]
            have h1 : ifcPred t = false := by simp [ifcPred, hkind]
            have h2 : objPred s t = false := by simp [objPred, hkind]
            have h3 : enumPred t = true := by simp [enumPred, hB, hE]
            have h4 : scalarPred t = false := by simp [scalarPred, hS]
            simp only [classifyAll, classifyType, hB, Bool.false_eq_true, if_false,
              (by simp [hkind] : (t.Kind == "INTERFACE" || t.Kind == "UNION") = false),
              (by simp [hkind] : (t.Kind == "OBJECT" || t.Kind == "INPUT_OBJECT") = false),
              hE, if_true, Except.bind]
            rw [ih]
            cases hcos : composeObjects cfg s ((t :: ts).filter (objPred s)) with
            | error e =>
              rw [List.filter_cons_of_neg (by simp [h2])] at hcos
              simp [hcos, Except.map]
            | ok os =>
              rw [List.filter_cons_of_neg (by simp [h2])] at hcos
              simp [hcos, Except.map, interfacesOf, enumsOf, scalarsOf, List.filter_cons,
                h1, h3, h4]
          · by_cases hS : (t.Kind == "SCALAR") = true
            · have hkind : t.Kind = "SCALAR" := beq_iff_eq.mp hS
              have h1 : ifcPred t = false := by simp [ifcPred, hkind]
              have h2 : objPred s t = false := by simp [objPred, hkind]
              have h3 : enumPred t = false := by simp [enumPred, hkind]
              have h4 : scalarPred t = true := by simp [scalarPred, hB, hS]
              simp only [classifyAll, classifyType, hB, Bool.false_eq_true, if_false,
                (by simp [hkind] : (t.Kind == "INTERFACE" || t.Kind == "UNION") = false),
                (by simp [hkind] : (t.Kind == "OBJECT" || t.Kind == "INPUT_OBJECT") = false),
                (by simp [hkind] : (t.Kind == "ENUM") = false),
                hS, if_true, Except.bind]
              rw [ih]
              cases hcos : composeObjects cfg s ((t :: ts).filter (objPred s)) with
              | error e =>
                rw [List.filter_cons_of_neg (by simp [h2])] at hcos
                simp [hcos, Except.map]
              | ok os =>
                rw [List.filter_cons_of_neg (by simp [h2])] at hcos
                simp [hcos, Except.map, interfacesOf, enumsOf, scalarsOf, List.filter_cons,
                  h1, h3, h4]
            · rw [Bool.not_eq_true] at hI hO hE hS
              have h1 : ifcPred t = false := by simp [ifcPred, hI]
              have h2 : objPred s t = false := by simp [objPred, hO]
              have h3 : enumPred t = false := by simp [enumPred, hE]
              have h4 : scalarPred t = false := by simp [scalarPred, hS]
              simp only [classifyAll, classifyType, hB, Bool.false_eq_true, if_false,
                hI, hO, hE, hS, Except.bind]
              rw [ih]
              simp [interfacesOf, enumsOf, scalarsOf, List.filter_cons, h1, h2, h3, h4]

/-! ### Sorting lemmas -/

theorem insertByName_perm {α : Type} (f : α → String) (x : α) (l : List α) :
    List.Perm (insertByName f x l) (x :: l) := by
  induction l with
  | nil => exact List.Perm.refl _
  | cons y ys ih =>
    simp only [insertByName]
    split
    · exact List.Perm.refl _
    · exact (ih.cons y).trans (List.Perm.swap x y ys)

theorem insertByName_pairwise {α : Type} (f : α → String) (x : α) (l : List α)
    (h : List.Pairwise (fun a b => f a ≤ f b) l) :
    List.Pairwise (fun a b => f a ≤ f b) (insertByName f x l) := by
  induction l with
  | nil => simp [insertByName]
  | cons y ys ih =>
    rw [List.pairwise_cons] at h
    obtain ⟨hy, hys⟩ := h
    simp only [insertByName]
    split
    next hle =>
      rw [List.pairwise_cons]
      refine ⟨?_, List.pairwise_cons.mpr ⟨hy, hys⟩⟩
      intro z hz
      rcases List.mem_cons.mp hz with rfl | hz2
      · exact hle
      · exact le_trans hle (hy z hz2)
    next hle =>
      have hyx : f y ≤ f x := le_of_not_le hle
      rw [List.pairwise_cons]
      refine ⟨?_, ih hys⟩
      intro z hz
      have hz2 : z ∈ x :: ys := (insertByName_perm f x ys).mem_iff.mp hz
      rcases List.mem_cons.mp hz2 with rfl | hz3
      · exact hyx
      · exact hy z hz3

theorem sortByName_perm {α : Type} (f : α → String) (l : List α) :
    List.Perm (sortByName f l) l := by
  induction l with
  | nil => exact List.Perm.refl _
  | cons x xs ih => exact (insertByName_perm f x (sortByName f xs)).trans (ih.cons x)

theorem sortByName_pairwise {α : Type} (f : α → String) (l : List α) :
    List.Pairwise (fun a b => f a ≤ f b) (sortByName f l) := by
  induction l with
  | nil => simp [sortByName]
  | cons x xs ih => exact insertByName_pairwise f x _ ih

/-! ### Characterizations of object composition -/

theorem composeObject_parts (cfg : Config) (s : Schema) (t : Definition) (o : Object)
    (h : composeObject cfg s t = .ok o) :
    o.Name = t.Name ∧ o.Description = t.Description ∧ o.Implements = s.Implements t.Name ∧
      composeFields cfg s t.Name t.Fields = .ok o.Fields := by
  unfold composeObject at h
  cases hcf : composeFields cfg s t.Name t.Fields with
  | error e => rw [hcf] at h; simp [Except.map] at h
  | ok fs =>
    rw [hcf] at h
    simp only [Except.map, Except.ok.injEq] at h
    subst h
    exact ⟨rfl, rfl, rfl, rfl⟩

theorem composeObjects_ok_mem (cfg : Config) (s : Schema) :
    ∀ (l : List Definition) (os : List Object),
      composeObjects cfg s l = .ok os → ∀ o ∈ os, ∃ t ∈ l, composeObject cfg s t = .ok o := by
  intro l
  induction l with
  | nil =>
    intro os h o ho
    simp only [composeObjects, Except.ok.injEq] at h
    subst h
    simp at ho
  | cons t ts ih =>
    intro os h o ho
    simp only [composeObjects, Bind.bind, Except.bind] at h
    cases hco : composeObject cfg s t with
    | error e => rw [hco] at h; simp at h
    | ok o1 =>
      rw [hco] at h
      cases hcos : composeObjects cfg s ts with
      | error e => rw [hcos] at h; simp at h
      | ok os1 =>
        rw [hcos] at h
        simp only [Except.ok.injEq] at h
        subst h
        rcases List.mem_cons.mp ho with rfl | ho2
        · exact ⟨t, List.mem_cons_self t ts, hco⟩
        · obtain ⟨t2, ht2, hco2⟩ := ih os1 hcos o ho2
          exact ⟨t2, List.mem_cons_of_mem t ht2, hco2⟩

theorem composeObjects_names (cfg : Config) (s : Schema) :
    ∀ (l : List Definition) (os : List Object),
      composeObjects cfg s l = .ok os →
        os.map Object.Name = l.map Definition.Name := by
  intro l
  induction l with
  | nil =>
    intro os h
    simp only [composeObjects, Except.ok.injEq] at h
    subst h
    rfl
  | cons t ts ih =>
    intro os h
    simp only [composeObjects, Bind.bind, Except.bind] at h
    cases hco : composeObject cfg s t with
    | error e => rw [hco] at h; simp at h
    | ok o1 =>
      rw [hco] at h
      cases hcos : composeObjects cfg s ts with
      | error e => rw [hcos] at h; simp at h
      | ok os1 =>
        rw [hcos] at h
        simp only [Except.ok.injEq] at h
        subst h
        simp only [List.map_cons]
        rw [(composeObject_parts cfg s t o1 hco).1, ih os1 hcos]

/-- Characterization of a successful run: the classifier's buckets are
exactly the filtered projections of the schema's type list, and the output
is the pure finishing pass over them. -/
theorem mutateConfig_ok_iff (cfg : Config) (s : Schema) (out : RunOutput) :
    MutateConfig cfg s = .ok out ↔
      ∃ ms, composeObjects cfg s (s.Types.filter (objPred s)) = .ok ms ∧
        out = finishRun cfg
          { PackageName := cfg.PackageName,
            Interfaces := interfacesOf s.Types,
            Models := ms,
            Enums := enumsOf s.Types,
            Scalars := scalarsOf s.Types } := by
  unfold MutateConfig
  rw [classifyAll_decomp]
  simp only [except_map_ok_iff]
  have hb : ∀ ms : List Object,
      ({ PackageName := (initialBuild cfg).PackageName,
         Interfaces := (initialBuild cfg).Interfaces ++ interfacesOf s.Types,
         Models := (initialBuild cfg).Models ++ ms,
         Enums := (initialBuild cfg).Enums ++ enumsOf s.Types,
         Scalars := (initialBuild cfg).Scalars ++ scalarsOf s.Types } : ModelBuild) =
      { PackageName := cfg.PackageName, Interfaces := interfacesOf s.Types, Models := ms,
        Enums := enumsOf s.Types, Scalars := scalarsOf s.Types } := by
    intro ms
    simp [initialBuild]
  constructor
  · rintro ⟨a, ⟨ms, hms, hrec⟩, hf⟩
    refine ⟨ms, hms, ?_⟩
    rw [← hf, ← hrec]
    exact (congrArg (finishRun cfg) (hb ms)).symm
  · rintro ⟨ms, hms, hout⟩
    refine ⟨_, ⟨ms, hms, rfl⟩, ?_⟩
    rw [hout]
    exact congrArg (finishRun cfg) (hb ms)

/-! ### Field-composer characterizations -/

theorem composeField_ok_parts (cfg : Config) (s : Schema) (tn : String) (f : FieldDefinition)
    (fld : Field) (h : composeField cfg s tn f = .ok fld) :
    fld.Description = f.Description ∧
    fld.Name = (if fieldNameOverride cfg tn f.Name == "" then f.Name
                else fieldNameOverride cfg tn f.Name) ∧
    fld.Tag = "json:\"" ++ f.Name ++ "\"" ∧
    fld.Gorm = gormTag f := by
  unfold composeField at h
  cases hres : resolveBase cfg s f with
  | error e => rw [hres] at h; simp [Bind.bind, Except.bind] at h
  | ok base =>
    rw [hres] at h
    simp only [Bind.bind, Except.bind] at h
    by_cases hst : isStruct (copyModifiersFromAst f.Typ base) = true
    · rw [if_pos hst] at h
      cases hfind : s.Types.find? (fun t => t.Name == f.Typ.Name) with
      | none => rw [hfind] at h; simp at h
      | some fd =>
        rw [hfind] at h
        simp only [Except.ok.injEq] at h
        subst h
        exact ⟨rfl, rfl, rfl, rfl⟩
    · rw [if_neg hst] at h
      simp only [Except.ok.injEq] at h
      subst h
      exact ⟨rfl, rfl, rfl, rfl⟩

theorem gorm_col_ne_empty (x : String) : ("gorm:\"column:" ++ x ++ "\"") ≠ "" := by
  intro hcon
  have hlen := congrArg String.length hcon
  rw [String.length_append, String.length_append,
    show ("gorm:\"column:").length = 13 from rfl,
    show ("\"").length = 1 from rfl,
    show ("").length = 0 from rfl] at hlen
  omega

theorem gormTag_ne_empty_of_directive (f : FieldDefinition) (d : Directive)
    (hd : f.Directives.find? (fun x => x.Name == "isDatabaseField") = some d) :
    gormTag f ≠ "" := by
  have hg : gormTag f = (match d.Arguments.find? (fun a => a.Name == "fieldName") with
      | some a => "gorm:\"column:" ++ a.Raw ++ "\""
      | none => "gorm:\"column:" ++ f.Name ++ "\"") := by
    unfold gormTag
    rw [hd]
  rw [hg]
  cases harg : d.Arguments.find? (fun a => a.Name == "fieldName") with
  | some a => exact gorm_col_ne_empty a.Raw
  | none => exact gorm_col_ne_empty f.Name

theorem composeFields_ok_parts (cfg : Config) (s : Schema) (tn : String) :
    ∀ (fs : List FieldDefinition) (flds : List Field),
      composeFields cfg s tn fs = .ok flds →
      flds.length = fs.length ∧
      ∀ i (h1 : i < flds.length) (h2 : i < fs.length),
        composeField cfg s tn (fs.get ⟨i, h2⟩) = .ok (flds.get ⟨i, h1⟩) := by
  intro fs
  induction fs with
  | nil =>
    intro flds h
    simp only [composeFields, Except.ok.injEq] at h
    subst h
    refine ⟨rfl, ?_⟩
    intro i h1 h2
    exact absurd h1 (by simp)
  | cons f fs ih =>
    intro flds h
    simp only [composeFields, Bind.bind, Except.bind] at h
    cases hcf : composeField cfg s tn f with
    | error e => rw [hcf] at h; simp at h
    | ok fl =>
      rw [hcf] at h
      cases hrest : composeFields cfg s tn fs with
      | error e => rw [hrest] at h; simp at h
      | ok rest =>
        rw [hrest] at h
        simp only [Except.ok.injEq] at h
        subst h
        obtain ⟨hlen, hidx⟩ := ih rest hrest
        refine ⟨by simp [hlen], ?_⟩
        intro i h1 h2
        cases i with
        | zero => simpa using hcf
        | succ j =>
          simp only [List.get_cons_succ]
          exact hidx j (by simpa using h1) (by simpa using h2)

/-! ### Claim theorems -/

/-- C1 counterexample: the claim says a non-built-in type of unknown kind
is a fatal, run-aborting condition. `schemaU`'s single type is
non-built-in with the unknown kind "WEIRD", yet `MutateConfig` does not
abort: it succeeds, the type contributes to no collection, and nothing is
rendered — the type is skipped. -/
theorem C1_counterexample :
    weirdU.BuiltIn = false ∧ knownKind weirdU.Kind = false ∧
    schemaU.Types = [weirdU] ∧
    MutateConfig cfgU schemaU =
      .ok { build := { PackageName := "model", Interfaces := [], Models := [],
                       Enums := [], Scalars := [] },
            registrations := [], rendered := false } :=
  ⟨rfl, rfl, rfl, rfl⟩

/-- C1 (amended): a non-built-in schema type whose kind is outside the
four known kinds is silently skipped by the classifier — removing it from
the walked type list changes nothing, and in particular its
classification neither contributes an entry nor aborts the run. (The
fatal exhaustiveness guard exists only in the field-type resolver.) -/
theorem C1_unknown_kind_skipped (cfg : Config) (s : Schema) (b : ModelBuild)
    (t : Definition) (ts1 ts2 : List Definition)
    (h : knownKind t.Kind = false) :
    classifyAll cfg s (ts1 ++ t :: ts2) b = classifyAll cfg s (ts1 ++ ts2) b := by
  rw [knownKind] at h
  simp only [Bool.or_eq_false_iff] at h
  obtain ⟨⟨⟨⟨⟨h1, h2⟩, h3⟩, h4⟩, h5⟩, h6⟩ := h
  have hct : ∀ b2, classifyType cfg s b2 t = .ok b2 := by
    intro b2
    simp [classifyType, h1, h2, h3, h4, h5, h6]
  induction ts1 generalizing b with
  | nil =>
    simp only [List.nil_append, classifyAll, hct, Except.bind]
  | cons t1 ts1 ih =>
    simp only [List.cons_append, classifyAll]
    cases classifyType cfg s b t1 with
    | error e => simp [Except.bind]
    | ok b2 => simp [Except.bind, ih b2]

/-- C2: after a successful run, the Enums, Models and Interfaces
collections of the assembled build are each sorted by name ascending
(hence, `MutateConfig` being a pure function of schema and configuration,
their order is identical across repeated runs). -/
theorem C2_collections_sorted (cfg : Config) (s : Schema) (out : RunOutput)
    (h : MutateConfig cfg s = .ok out) :
    List.Pairwise (fun a b : Enum => a.Name ≤ b.Name) out.build.Enums ∧
    List.Pairwise (fun a b : Object => a.Name ≤ b.Name) out.build.Models ∧
    List.Pairwise (fun a b : Interface => a.Name ≤ b.Name) out.build.Interfaces := by
  obtain ⟨ms, hms, hout⟩ := (mutateConfig_ok_iff cfg s out).mp h
  subst hout
  refine ⟨?_, ?_, ?_⟩ <;>
    · simp only [finishRun, sortBuild]
      exact sortByName_pairwise _ _

/-- C3: the types designated as the Query, Mutation or Subscription root
never appear in the Models collection of a successful run's build. -/
theorem C3_roots_never_in_models (cfg : Config) (s : Schema) (out : RunOutput)
    (h : MutateConfig cfg s = .ok out) :
    ∀ o ∈ out.build.Models, isRootName s o.Name = false := by
  obtain ⟨ms, hms, hout⟩ := (mutateConfig_ok_iff cfg s out).mp h
  subst hout
  intro o ho
  simp only [finishRun, sortBuild] at ho
  have ho2 : o ∈ ms := (sortByName_perm Object.Name ms).mem_iff.mp ho
  obtain ⟨t, ht, hco⟩ := composeObjects_ok_mem cfg s _ ms hms o ho2
  have hobj : objPred s t = true := (List.mem_filter.mp ht).2
  have hname : o.Name = t.Name := (composeObject_parts cfg s t o hco).1
  rw [hname]
  simp only [objPred, Bool.and_eq_true] at hobj
  simpa using hobj.2

/-- C4: a field whose modifier-resolved type reference is struct-shaped
and whose base type's schema kind is Object or InputObject gets a
pointer-wrapped final type reference in its descriptor, independently of
the schema's declared required-ness (the field `f` is arbitrary). -/
theorem C4_struct_reference_pointer_wrapped (cfg : Config) (s : Schema) (tn : String)
    (f : FieldDefinition) (fld : Field) (t0 : GoType)
    (h : composeField cfg s tn f = .ok fld)
    (hres : resolveBase cfg s f = .ok t0)
    (hstruct : isStruct (copyModifiersFromAst f.Typ t0) = true)
    (hkind : fieldKindIsObj s f = true) :
    fld.Typ = GoType.pointer (copyModifiersFromAst f.Typ t0) := by
  unfold composeField at h
  rw [hres] at h
  simp only [Bind.bind, Except.bind] at h
  rw [if_pos hstruct] at h
  unfold fieldKindIsObj at hkind
  cases hfind : s.Types.find? (fun t => t.Name == f.Typ.Name) with
  | none => rw [hfind] at hkind; cases hkind
  | some fd =>
    rw [hfind] at hkind
    have hk2 : (fd.Kind == "OBJECT" || fd.Kind == "INPUT_OBJECT") = true := hkind
    rw [hfind] at h
    simp only [Except.ok.injEq] at h
    subst h
    simp [hk2]

/-- C5 counterexample: the claim says a type-level `@isDatabaseField` on
an object triggers persistence-tag emission for its fields. In `schemaD`
the object `User` carries the directive at the type level and its single
field carries none; yet the run succeeds and the generated field's
persistence tag is empty. -/
theorem C5_counterexample :
    userD.Directives = [{ Name := "isDatabaseField", Arguments := [] }] ∧
    (userD.Fields.map FieldDefinition.Directives) = [[]] ∧
    (MutateConfig cfgU schemaD).map
        (fun r => r.build.Models.map (fun m => m.Fields.map (fun fl => fl.Gorm)))
      = .ok [[""]] :=
  ⟨rfl, rfl, rfl⟩

/-- C5 (amended): persistence-tag emission is triggered exactly by the
presence of the database-field directive on the FIELD itself; the
persistence tag of a composed field is non-empty iff the field's own
directive list contains `isDatabaseField` (so a type-level occurrence has
no effect on the fields). -/
theorem C5_field_directive_triggers_tag (cfg : Config) (s : Schema) (tn : String)
    (f : FieldDefinition) (fld : Field)
    (h : composeField cfg s tn f = .ok fld) :
    (fld.Gorm ≠ "" ↔
      (f.Directives.find? (fun d => d.Name == "isDatabaseField")).isSome = true) := by
  obtain ⟨-, -, -, hg⟩ := composeField_ok_parts cfg s tn f fld h
  rw [hg]
  cases hd : f.Directives.find? (fun d => d.Name == "isDatabaseField") with
  | none => simp [gormTag, hd]
  | some d =>
    simp only [Option.isSome_some, iff_true]
    exact gormTag_ne_empty_of_directive f d hd

/-- C6: for a field carrying the database-field directive, the
persistence tag's column name is the directive's `fieldName` argument
verbatim when present, else the schema field's declared name. -/
theorem C6_gorm_column_name (cfg : Config) (s : Schema) (tn : String)
    (f : FieldDefinition) (fld : Field) (d : Directive)
    (h : composeField cfg s tn f = .ok fld)
    (hd : f.Directives.find? (fun x => x.Name == "isDatabaseField") = some d) :
    fld.Gorm = (match d.Arguments.find? (fun a => a.Name == "fieldName") with
      | some a => "gorm:\"column:" ++ a.Raw ++ "\""
      | none => "gorm:\"column:" ++ f.Name ++ "\"") := by
  obtain ⟨-, -, -, hg⟩ := composeField_ok_parts cfg s tn f fld h
  rw [hg]
  unfold gormTag
  rw [hd]

/-- C7: the serialization tag of every composed field is derived from the
schema field's original declared name, even when a non-empty name
override renames the in-memory field. -/
theorem C7_json_tag_original_name (cfg : Config) (s : Schema) (tn : String)
    (f : FieldDefinition) (fld : Field)
    (h : composeField cfg s tn f = .ok fld) :
    fld.Tag = "json:\"" ++ f.Name ++ "\"" ∧
    (¬ fieldNameOverride cfg tn f.Name = "" → fld.Name = fieldNameOverride cfg tn f.Name) := by
  obtain ⟨-, hn, ht, -⟩ := composeField_ok_parts cfg s tn f fld h
  refine ⟨ht, ?_⟩
  intro hov
  rw [hn, if_neg (by simpa using hov)]

/-- C8: a successful run renders nothing exactly when all four
collections of the build are empty (and then reports success); otherwise
the external renderer is invoked. -/
theorem C8_render_iff_nonempty (cfg : Config) (s : Schema) (out : RunOutput)
    (h : MutateConfig cfg s = .ok out) :
    (out.rendered = false ↔
      (out.build.Interfaces = [] ∧ out.build.Models = [] ∧
       out.build.Enums = [] ∧ out.build.Scalars = [])) := by
  obtain ⟨ms, hms, hout⟩ := (mutateConfig_ok_iff cfg s out).mp h
  subst hout
  simp only [finishRun, sortBuild]
  simp only [Bool.not_eq_false', Bool.and_eq_true, List.isEmpty_iff]
  constructor
  · rintro ⟨⟨⟨hm, he⟩, hi⟩, hs⟩
    exact ⟨hi, hm, he, hs⟩
  · rintro ⟨hi, hm, he, hs⟩
    exact ⟨⟨⟨hm, he⟩, hi⟩, hs⟩

/-- C10: every object of a successful run's Models collection comes from
a schema type of the same name, and its Fields list is exactly the
in-declaration-order composition of that type's declared fields (length
preserved, and the i-th descriptor's serialization tag carries the i-th
declared field's name) — fields are never re-sorted. -/
theorem C10_fields_in_declaration_order (cfg : Config) (s : Schema) (out : RunOutput)
    (h : MutateConfig cfg s = .ok out) :
    ∀ o ∈ out.build.Models, ∃ t, t ∈ s.Types ∧ t.Name = o.Name ∧
      composeFields cfg s t.Name t.Fields = .ok o.Fields ∧
      o.Fields.length = t.Fields.length ∧
      (∀ i (h1 : i < o.Fields.length) (h2 : i < t.Fields.length),
        (o.Fields.get ⟨i, h1⟩).Tag = "json:\"" ++ (t.Fields.get ⟨i, h2⟩).Name ++ "\"") := by
  obtain ⟨ms, hms, hout⟩ := (mutateConfig_ok_iff cfg s out).mp h
  subst hout
  intro o ho
  simp only [finishRun, sortBuild] at ho
  have ho2 : o ∈ ms := (sortByName_perm Object.Name ms).mem_iff.mp ho
  obtain ⟨t, ht, hco⟩ := composeObjects_ok_mem cfg s _ ms hms o ho2
  have htypes : t ∈ s.Types := (List.mem_filter.mp ht).1
  obtain ⟨hname, -, -, hfields⟩ := composeObject_parts cfg s t o hco
  refine ⟨t, htypes, hname.symm, hfields, ?_, ?_⟩
  · exact (composeFields_ok_parts cfg s t.Name t.Fields o.Fields hfields).1
  · intro i h1 h2
    have hcf := (composeFields_ok_parts cfg s t.Name t.Fields o.Fields hfields).2 i h1 h2
    exact (composeField_ok_parts cfg s t.Name _ _ hcf).2.2.1

/-! ### Registration-log lemmas (for C9) -/

theorem enumsOf_names (ts : List Definition) :
    (enumsOf ts).map Enum.Name = (ts.filter enumPred).map Definition.Name := by
  unfold enumsOf
  rw [List.map_map]
  rfl

theorem interfacesOf_names (ts : List Definition) :
    (interfacesOf ts).map Interface.Name = (ts.filter ifcPred).map Definition.Name := by
  unfold interfacesOf
  rw [List.map_map]
  rfl

theorem scalarsOf_names (ts : List Definition) :
    scalarsOf ts = (ts.filter scalarPred).map Definition.Name := rfl

theorem registrationsOf_keys (cfg : Config) (b : ModelBuild) :
    (registrationsOf cfg b).map Prod.fst
      = b.Enums.map Enum.Name ++ b.Models.map Object.Name
        ++ b.Interfaces.map Interface.Name ++ b.Scalars := by
  unfold registrationsOf
  simp only [List.map_append, List.map_map]
  rw [show (Prod.fst ∘ fun n : String => (n, "github.com/99designs/gqlgen/graphql.String")) = id
      from rfl,
    List.map_id]
  rfl

theorem enumPred_kind (t : Definition) (h : enumPred t = true) : t.Kind = "ENUM" := by
  simp only [enumPred, Bool.and_eq_true, beq_iff_eq] at h
  exact h.2

theorem scalarPred_kind (t : Definition) (h : scalarPred t = true) : t.Kind = "SCALAR" := by
  simp only [scalarPred, Bool.and_eq_true, beq_iff_eq] at h
  exact h.2

theorem ifcPred_kind (t : Definition) (h : ifcPred t = true) :
    t.Kind = "INTERFACE" ∨ t.Kind = "UNION" := by
  simp only [ifcPred, Bool.and_eq_true, Bool.or_eq_true, beq_iff_eq] at h
  exact h.2

theorem objPred_kind (s : Schema) (t : Definition) (h : objPred s t = true) :
    t.Kind = "OBJECT" ∨ t.Kind = "INPUT_OBJECT" := by
  simp only [objPred, Bool.and_eq_true, Bool.or_eq_true, beq_iff_eq] at h
  exact h.1.2

/-- Names of two kind-disjoint filtered sublists are disjoint, provided
all type names are distinct (Go map-key uniqueness). -/
theorem filtered_names_disjoint (p q : Definition → Bool) (ts : List Definition)
    (hnodup : (ts.map Definition.Name).Nodup)
    (hpq : ∀ t, p t = true → q t = true → False) :
    List.Disjoint ((ts.filter p).map Definition.Name) ((ts.filter q).map Definition.Name) := by
  intro x hx hy
  obtain ⟨t1, ht1, hn1⟩ := List.mem_map.mp hx
  obtain ⟨t2, ht2, hn2⟩ := List.mem_map.mp hy
  have ht1f := List.mem_filter.mp ht1
  have ht2f := List.mem_filter.mp ht2
  have heq : t1 = t2 :=
    List.inj_on_of_nodup_map hnodup ht1f.1 ht2f.1 (by rw [hn1, hn2])
  exact hpq t1 ht1f.2 (heq ▸ ht2f.2)

/-- The concatenation of the four buckets' name lists has no duplicates
when the schema's type names are distinct. -/
theorem four_filtered_names_nodup (s : Schema) (ts : List Definition)
    (hnodup : (ts.map Definition.Name).Nodup) :
    ((ts.filter enumPred).map Definition.Name
      ++ (ts.filter (objPred s)).map Definition.Name
      ++ (ts.filter ifcPred).map Definition.Name
      ++ (ts.filter scalarPred).map Definition.Name).Nodup := by
  have hsub : ∀ p : Definition → Bool, ((ts.filter p).map Definition.Name).Nodup := by
    intro p
    exact hnodup.sublist ((List.filter_sublist ts).map Definition.Name)
  have hEO : ∀ t, enumPred t = true → objPred s t = true → False := by
    intro t h1 h2
    rcases objPred_kind s t h2 with h | h <;> rw [enumPred_kind t h1] at h <;>
      exact absurd h (by decide)
  have hEI : ∀ t, enumPred t = true → ifcPred t = true → False := by
    intro t h1 h2
    rcases ifcPred_kind t h2 with h | h <;> rw [enumPred_kind t h1] at h <;>
      exact absurd h (by decide)
  have hES : ∀ t, enumPred t = true → scalarPred t = true → False := by
    intro t h1 h2
    have ha := enumPred_kind t h1
    have hb := scalarPred_kind t h2
    rw [ha] at hb
    exact absurd hb (by decide)
  have hOI : ∀ t, objPred s t = true → ifcPred t = true → False := by
    intro t h1 h2
    rcases objPred_kind s t h1 with h | h <;> rcases ifcPred_kind t h2 with h3 | h3 <;>
      rw [h] at h3 <;> exact absurd h3 (by decide)
  have hOS : ∀ t, objPred s t = true → scalarPred t = true → False := by
    intro t h1 h2
    have hb := scalarPred_kind t h2
    rcases objPred_kind s t h1 with h | h <;> rw [h] at hb <;> exact absurd hb (by decide)
  have hIS : ∀ t, ifcPred t = true → scalarPred t = true → False := by
    intro t h1 h2
    have hb := scalarPred_kind t h2
    rcases ifcPred_kind t h1 with h | h <;> rw [h] at hb <;> exact absurd hb (by decide)
  refine List.nodup_append.mpr ⟨?_, hsub _, ?_⟩
  · refine List.nodup_append.mpr ⟨?_, hsub _, ?_⟩
    · exact List.nodup_append.mpr
        ⟨hsub _, hsub _, filtered_names_disjoint _ _ ts hnodup hEO⟩
    · rw [List.disjoint_append_left]
      exact ⟨filtered_names_disjoint _ _ ts hnodup hEI,
        filtered_names_disjoint _ _ ts hnodup hOI⟩
  · rw [List.disjoint_append_left, List.disjoint_append_left]
    exact ⟨⟨filtered_names_disjoint _ _ ts hnodup hES,
      filtered_names_disjoint _ _ ts hnodup hOS⟩,
      filtered_names_disjoint _ _ ts hnodup hIS⟩

/-- C9: after sorting and before rendering, the registration log is
exactly the Enums, then Models, then Interfaces, then Scalars of the
build, each mapped to its generated path (scalars to the built-in
string-like type); and, the schema's type names being distinct (they are
Go map keys), every name is registered exactly once (no duplicate keys). -/
theorem C9_registration_log (cfg : Config) (s : Schema) (out : RunOutput)
    (h : MutateConfig cfg s = .ok out)
    (hnodup : (s.Types.map Definition.Name).Nodup) :
    (out.registrations =
      out.build.Enums.map (fun it => (it.Name, cfg.ImportPath ++ "." ++ cfg.ToGo it.Name))
      ++ out.build.Models.map (fun it => (it.Name, cfg.ImportPath ++ "." ++ cfg.ToGo it.Name))
      ++ out.build.Interfaces.map (fun it => (it.Name, cfg.ImportPath ++ "." ++ cfg.ToGo it.Name))
      ++ out.build.Scalars.map (fun n => (n, "github.com/99designs/gqlgen/graphql.String"))) ∧
    (out.registrations.map Prod.fst).Nodup := by
  obtain ⟨ms, hms, hout⟩ := (mutateConfig_ok_iff cfg s out).mp h
  subst hout
  constructor
  · rfl
  · have hmnames : ms.map Object.Name = (s.Types.filter (objPred s)).map Definition.Name :=
      composeObjects_names cfg s _ ms hms
    show ((registrationsOf cfg (sortBuild
      { PackageName := cfg.PackageName, Interfaces := interfacesOf s.Types, Models := ms,
        Enums := enumsOf s.Types, Scalars := scalarsOf s.Types })).map Prod.fst).Nodup
    rw [registrationsOf_keys]
    simp only [sortBuild]
    have pE : List.Perm ((sortByName Enum.Name (enumsOf s.Types)).map Enum.Name)
        ((s.Types.filter enumPred).map Definition.Name) := by
      rw [← enumsOf_names]
      exact (sortByName_perm Enum.Name (enumsOf s.Types)).map Enum.Name
    have pM : List.Perm ((sortByName Object.Name ms).map Object.Name)
        ((s.Types.filter (objPred s)).map Definition.Name) := by
      rw [← hmnames]
      exact (sortByName_perm Object.Name ms).map Object.Name
    have pI : List.Perm ((sortByName Interface.Name (interfacesOf s.Types)).map Interface.Name)
        ((s.Types.filter ifcPred).map Definition.Name) := by
      rw [← interfacesOf_names]
      exact (sortByName_perm Interface.Name (interfacesOf s.Types)).map Interface.Name
    have pS : List.Perm (scalarsOf s.Types) ((s.Types.filter scalarPred).map Definition.Name) := by
      rw [scalarsOf_names]
    have hperm := ((pE.append pM).append pI).append pS
    exact (hperm.nodup_iff).mpr (four_filtered_names_nodup s s.Types hnodup)

/-! ### Witnesses: each hypothesis-bearing claim theorem applied at a
concrete input. -/

/-- Witness for C1 (amended) at the concrete unknown-kind schema. -/
theorem C1_unknown_kind_skipped_witness :
    classifyAll cfgU schemaU ([] ++ weirdU :: []) (initialBuild cfgU)
      = classifyAll cfgU schemaU ([] ++ []) (initialBuild cfgU) :=
  C1_unknown_kind_skipped cfgU schemaU (initialBuild cfgU) weirdU [] [] (by decide)

/-- Witness for C2 at the concrete run `runW`. -/
theorem C2_witness :
    List.Pairwise (fun a b : Enum => a.Name ≤ b.Name) runW.build.Enums ∧
    List.Pairwise (fun a b : Object => a.Name ≤ b.Name) runW.build.Models ∧
    List.Pairwise (fun a b : Interface => a.Name ≤ b.Name) runW.build.Interfaces :=
  C2_collections_sorted cfgW schemaW runW rfl

/-- Witness for C3: the generated `User` model is not a root type. -/
theorem C3_witness : isRootName schemaW oW.Name = false :=
  C3_roots_never_in_models cfgW schemaW runW rfl oW (by decide)

/-- Witness for C4: the required `friend: User!` field is pointer-wrapped. -/
theorem C4_witness :
    fldFriendW.Typ
      = GoType.pointer (copyModifiersFromAst fFriendW.Typ (GoType.named "User" GoType.structEmpty)) :=
  C4_struct_reference_pointer_wrapped cfgW schemaW "User" fFriendW fldFriendW
    (GoType.named "User" GoType.structEmpty) rfl rfl (by decide) (by decide)

/-- Witness for C5 (amended) at the `name` field carrying the directive. -/
theorem C5_witness :
    (fldNameW.Gorm ≠ "" ↔
      (fNameW.Directives.find? (fun d => d.Name == "isDatabaseField")).isSome = true) :=
  C5_field_directive_triggers_tag cfgW schemaW "User" fNameW fldNameW rfl

/-- Witness for C6 at the `addr` field with an explicit column argument. -/
theorem C6_witness :
    fldAddrW.Gorm =
      (match (({ Name := "isDatabaseField",
                 Arguments := [{ Name := "fieldName", Raw := "home_address" }] } :
            Directive)).Arguments.find? (fun a => a.Name == "fieldName") with
        | some a => "gorm:\"column:" ++ a.Raw ++ "\""
        | none => "gorm:\"column:" ++ fAddrW.Name ++ "\"") :=
  C6_gorm_column_name cfgW schemaW "User" fAddrW fldAddrW _ rfl rfl

/-- Witness for C7 at the overridden `name` field. -/
theorem C7_witness :
    fldNameW.Tag = "json:\"" ++ fNameW.Name ++ "\"" ∧
    (¬ fieldNameOverride cfgW "User" fNameW.Name = "" →
      fldNameW.Name = fieldNameOverride cfgW "User" fNameW.Name) :=
  C7_json_tag_original_name cfgW schemaW "User" fNameW fldNameW rfl

/-- Witness for C8 at the concrete run `runW`. -/
theorem C8_witness :
    (runW.rendered = false ↔
      (runW.build.Interfaces = [] ∧ runW.build.Models = [] ∧
       runW.build.Enums = [] ∧ runW.build.Scalars = [])) :=
  C8_render_iff_nonempty cfgW schemaW runW rfl

/-- Witness for C9 at the concrete run `runW`. -/
theorem C9_witness :
    (runW.registrations =
      runW.build.Enums.map (fun it => (it.Name, cfgW.ImportPath ++ "." ++ cfgW.ToGo it.Name))
      ++ runW.build.Models.map (fun it => (it.Name, cfgW.ImportPath ++ "." ++ cfgW.ToGo it.Name))
      ++ runW.build.Interfaces.map (fun it => (it.Name, cfgW.ImportPath ++ "." ++ cfgW.ToGo it.Name))
      ++ runW.build.Scalars.map (fun n => (n, "github.com/99designs/gqlgen/graphql.String"))) ∧
    (runW.registrations.map Prod.fst).Nodup :=
  C9_registration_log cfgW schemaW runW rfl (by decide)

/-- Witness for C10 at the generated `User` model. -/
theorem C10_witness :
    ∃ t, t ∈ schemaW.Types ∧ t.Name = oW.Name ∧
      composeFields cfgW schemaW t.Name t.Fields = .ok oW.Fields ∧
      oW.Fields.length = t.Fields.length ∧
      (∀ i (h1 : i < oW.Fields.length) (h2 : i < t.Fields.length),
        (oW.Fields.get ⟨i, h1⟩).Tag = "json:\"" ++ (t.Fields.get ⟨i, h2⟩).Name ++ "\"") :=
  C10_fields_in_declaration_order cfgW schemaW runW rfl oW (by decide)

end Modelgen
